import Mathlib

/-!
# Verification of the FDTD pipeline core

Shallow embedding of the parameter-resolution / run-orchestration pipeline
(`helper_functions/lumerical/simulate_device.py`,
`helper_functions/tidy3d/simulate_device.py`,
`helper_functions/generic/misc.py`) and of the spectral post-processing
pipeline (`projects/FDTD_solvers/ring/find_FWHM.py`,
`helper_functions/tidy3d/data_analysis.py`).

Python floats are embedded as exact rationals (`ℚ`), Python strings as
`String`, Python dictionaries as association lists with first-match lookup
(later layers are prepended, so prepending is exactly `dict.update`
precedence).  Filesystem state (`os.path.exists`, `os.access`) is a pair of
Boolean predicates on paths.  The interactive prompt is the list of
successive raw `input()` results, where `Option.none` stands for a
`KeyboardInterrupt` raised during the prompt.
-/

set_option maxRecDepth 10000

/-- A Python value as it appears in the parameter dictionaries:
strings, int/float numbers (embedded as `ℚ`), booleans, complex numbers,
lists, (string-keyed) dicts, and `None`. -/
inductive PValue where
  | str (s : String)
  | num (q : ℚ)
  | bool (b : Bool)
  | cnum (re im : ℚ)
  | list (xs : List PValue)
  | dict (xs : List (String × PValue))
  | pynone

/-- A Python dictionary with string keys: association list, first match wins. -/
abbrev PDict : Type := List (String × PValue)

/-- `d[k]` / `d.get(k)`: first binding of `k` in the association list. -/
def dictGet (d : PDict) (k : String) : Option PValue :=
  (d.find? (fun kv => kv.1 == k)).map (fun kv => kv.2)

/-- `base.update(other)`: lookup precedence goes to `other`.  With
first-match lookup this is exactly prepending the overriding layer. -/
def dictUpdate (base other : PDict) : PDict := other ++ base

/-- Python truthiness (`bool(v)`) for the embedded values. -/
def truthy : PValue → Bool
  | .str s => s ≠ ""
  | .num q => q ≠ 0
  | .bool b => b
  | .cnum re im => ¬(re = 0 ∧ im = 0)
  | .list xs => !xs.isEmpty
  | .dict xs => !xs.isEmpty
  | .pynone => false

/-- `bool(d.get(k))`: a missing key is `None`, which is falsy. -/
def truthyOpt : Option PValue → Bool
  | Option.none => false
  | some v => truthy v

/-- The error kinds raised by the embedded code (Python exception classes). -/
inductive PyErr where
  | valueError
  | fileNotFoundError
  | permissionError
  | typeError
  | runtimeError
deriving DecidableEq

/- ## helper_functions/generic/misc.py -/

mutual

/-- `misc.convert_for_json`: recursively convert dict entries and list items;
a `complex` becomes the dict `{"real": v.real, "imag": v.imag}`; everything
else is returned unchanged.  (NumPy arrays, which `tolist` would flatten,
are already embedded as `PValue.list`.) -/
def convert_for_json : PValue → PValue
  | .dict xs => .dict (convertEntries xs)
  | .list xs => .list (convertItems xs)
  | .cnum re im => .dict [("real", .num re), ("imag", .num im)]
  | v => v

/-- The dict comprehension inside `convert_for_json`. -/
def convertEntries : List (String × PValue) → List (String × PValue)
  | [] => []
  | (k, v) :: rest => (k, convert_for_json v) :: convertEntries rest

/-- The list comprehension inside `convert_for_json`. -/
def convertItems : List PValue → List PValue
  | [] => []
  | v :: rest => convert_for_json v :: convertItems rest

end

/-- `misc.ComplexEncoder.default`: returns the `{"real", "imag"}` dict for a
complex value and raises `TypeError` (here: `Option.none`) for a value the
base encoder cannot serialize either.  (The NumPy-array branch is the
identity in this embedding, since arrays are already `PValue.list`.) -/
def complexEncoderDefault : PValue → Option PValue
  | .cnum re im => some (.dict [("real", .num re), ("imag", .num im)])
  | .list xs => some (.list xs)
  | _ => Option.none

/-- Drop the trailing `'/'` characters (`head.rstrip(sep)`). -/
def dropTrailingSlashes (cs : List Char) : List Char :=
  (cs.reverse.dropWhile (fun c => c = '/')).reverse

/-- `p.rfind('/') + 1`: the position just after the last slash, `0` if none
(counted from the front as the length minus the trailing slash-free run). -/
def lastSlashEnd (cs : List Char) : Nat :=
  cs.length - (cs.reverse.takeWhile (fun c => c ≠ '/')).length

/-- `os.path.dirname` (POSIX): everything up to the last `'/'`, with
trailing slashes stripped unless the head is all slashes. -/
def dirname (s : String) : String :=
  let cs := s.toList
  let head := cs.take (lastSlashEnd cs)
  if head ≠ [] ∧ head.any (fun c => c ≠ '/') then String.mk (dropTrailingSlashes head)
  else String.mk head

/-- `misc.write_to_json`: convert the dictionary, then
`os.makedirs(os.path.dirname(json_name), exist_ok=True)`, then dump.
`os.makedirs("")` raises `FileNotFoundError` (errno 2 on an empty path), and
the surrounding `except` clause re-raises; with a nonempty directory
component the directories are created and the dump succeeds, returning the
JSON content that was written. -/
def write_to_json (dict_name : PDict) (json_name : String) : Except PyErr PValue :=
  let converted := convert_for_json (.dict dict_name)
  if dirname json_name = "" then .error .fileNotFoundError
  else .ok converted

/-- `misc.validate_file_path`: `FileNotFoundError` if the path does not
exist, `PermissionError` if it exists but is not readable, `True` otherwise.
The filesystem is abstracted by the two predicates. -/
def validate_file_path (pathExists readable : String → Bool) (file_path : String) :
    Except PyErr Bool :=
  if pathExists file_path = false then .error .fileNotFoundError
  else if readable file_path = false then .error .permissionError
  else .ok true

/- ## simulate_device.py: parameter resolution (both backends) -/

/-- The built-in default parameter dict of
`lumerical/simulate_device.simulate_predefined_gds`.  `now` stands for
`datetime.now().strftime('%Y%m%d%H%M%S')`. -/
def lumericalDefaults (now : String) : PDict :=
  [ ("wavelength", .num (17/20)),
    ("wav_span", .num (1/50)),
    ("wav_step", .num (1/100)),
    ("resolution", .num 6),
    ("temperature", .num 300),
    ("predefined_gds", .str "mmi_1x2_450_VISPIC2.gds"),
    ("material_type", .str "universal"),
    ("guiding_material", .str "SiN"),
    ("lumapi_path", .str "C:\\Program Files\\Lumerical\\v251\\api\\python"),
    ("file_name", .str ("test_" ++ now)),
    ("mode_num", .num 5),
    ("mode_idx", .num 1),
    ("flag_extend", .num 1),
    ("extension", .num 10),
    ("flag_run_simulation", .num 0),
    ("flag_boolean", .num 0),
    ("solver_z_min", .num (-1)),
    ("solver_z_max", .num 1),
    ("change_cladding", .bool false) ]

/-- The built-in default parameter dict of
`tidy3d/simulate_device.simulate_predefined_gds`. -/
def tidy3dDefaults (now : String) : PDict :=
  [ ("wavelength", .num (31/20)),
    ("wav_span", .num (1/20)),
    ("resolution", .num 6),
    ("temperature", .num 300),
    ("predefined_gds", .str "mmi_1x2_450_VISPIC2.gds"),
    ("material_type", .str "universal"),
    ("guiding_material", .str "SiN"),
    ("file_name", .str ("test_" ++ now)),
    ("task_name", .str ("test_" ++ now)),
    ("mode_num", .num 5),
    ("mode_idx", .num 1),
    ("flag_extend", .num 1),
    ("extension", .num 10),
    ("flag_run_simulation", .num 0),
    ("flag_boolean", .num 0),
    ("solver_z_min", .num (-1)),
    ("solver_z_max", .num 1),
    ("change_cladding", .bool false) ]

/-- Outcome of `open("config.json")` + `json.load`: the file may be absent
(recoverable: a warning, defaults are kept), present but malformed
(`json.JSONDecodeError`, re-raised as `ValueError`), or a loaded dict. -/
inductive ConfigLoad where
  | missing
  | malformed
  | loaded (c : PDict)

/-- The merged parameter dict `p` after `p.update(config)` (when loaded)
and `p.update(parameters)`: caller overrides win over config, config wins
over defaults. -/
def mergedParams (defaults : PDict) (cfg : ConfigLoad) (overrides : PDict) : PDict :=
  match cfg with
  | .loaded c => dictUpdate (dictUpdate defaults c) overrides
  | _ => dictUpdate defaults overrides

/-- The parameter-resolution phase of `simulate_predefined_gds` (lines
50–99 of the lumerical variant, 49–96 of the tidy3d variant): layered
merge, `ValueError` on a malformed config or falsy `predefined_gds`,
`validate_file_path` on the geometry path, then insertion of the derived
key `gds_file = file_name + '.gds'`.  A truthy non-string geometry path or
a non-string `file_name` would make the Python library calls raise
`TypeError`. -/
def resolveDescriptor (defaults : PDict) (cfg : ConfigLoad) (overrides : PDict)
    (pathExists readable : String → Bool) : Except PyErr PDict :=
  match cfg with
  | .malformed => .error .valueError
  | _ =>
    let p := mergedParams defaults cfg overrides
    if truthyOpt (dictGet p "predefined_gds") = false then .error .valueError
    else
      match dictGet p "predefined_gds" with
      | some (.str gpath) =>
        match validate_file_path pathExists readable gpath with
        | .error e => .error e
        | .ok _ =>
          match dictGet p "file_name" with
          | some (.str fn) => .ok (("gds_file", .str (fn ++ ".gds")) :: p)
          | _ => .error .typeError
      | _ => .error .typeError

/- ## simulate_device.py: artifact gate, engine hand-off, submission -/

/-- The gate's decision vocabulary: run a fresh simulation, reuse the
existing artifact (and still hand off to the engine), or abort. -/
inductive GateDecision where
  | runFresh
  | reuseExisting
  | aborted
deriving DecidableEq

/-- The ASCII whitespace characters `str.strip()` removes. -/
def isPySpace (c : Char) : Bool :=
  c == ' ' || c == '\t' || c == '\n' || c == '\r' || c == '\x0b' || c == '\x0c'

/-- Python `str.strip()` (restricted to ASCII whitespace). -/
def pyStrip (s : String) : String :=
  String.mk (((s.toList.dropWhile isPySpace).reverse.dropWhile isPySpace).reverse)

/-- Python `str.lower()` (restricted to ASCII letters). -/
def pyLower (s : String) : String :=
  String.mk (s.toList.map Char.toLower)

/-- `input("Do you want to continue? (y/n): ").strip().lower()`. -/
def normalizeResponse (s : String) : String := pyLower (pyStrip s)

/-- The `while True` confirmation loop over the successive prompt
responses; `Option.none` in the stream is a `KeyboardInterrupt` during
`input()`.  Returns `Option.none` when every supplied response was
rejected, i.e. the loop is still blocking on input. -/
def promptLoop : List (Option String) → Option GateDecision
  | [] => Option.none
  | Option.none :: _ => some .aborted
  | some s :: rest =>
    if normalizeResponse s = "y" then some .reuseExisting
    else if normalizeResponse s = "n" then some .aborted
    else promptLoop rest

/-- The artifact gate (lines 121–143 lumerical / 118–140 tidy3d): if no
artifact exists at the expected path, start fresh without prompting;
otherwise run the confirmation loop. -/
def check_and_confirm (artifactExists : Bool) (responses : List (Option String)) :
    Option GateDecision :=
  if artifactExists then promptLoop responses else some .runFresh

/-- What an engine hand-off did: whether the solver actually ran, whether a
result artifact was written, and the returned result mapping (abstracted
to `Option Unit`). -/
structure EngineRun where
  solverRan : Bool
  artifactCreated : Bool
  result : Option Unit

/-- Modelled from the spec: `fdtd_from_gds`
(`helper_functions/{lumerical,tidy3d}/initiate_fdtd.py` is not part of the
sources under verification).  Per the spec's engine-invocation boundary and
the adapter docstring ("Returns: Dictionary containing simulation results
if flag_run_simulation is True, None otherwise"), it runs the solver and
creates the result artifact iff `flag_run_simulation` is truthy, and
returns `None` without running the solver otherwise. -/
def fdtd_from_gds (p : PDict) : EngineRun :=
  if truthyOpt (dictGet p "flag_run_simulation") then ⟨true, true, some ()⟩
  else ⟨false, false, Option.none⟩

/-- Result of a submission: a returned value (`results` or `None`), a
raised exception, or still blocked on the confirmation prompt. -/
inductive SimOutcome where
  | ret (r : Option Unit)
  | err (e : PyErr)
  | pending
deriving DecidableEq

/-- Observable behaviour of the geometry-copy → artifact-gate → engine
phase. -/
structure SubmitOut where
  outcome : SimOutcome
  gdsCopied : Bool
  engineCalled : Bool
  solverRan : Bool
  artifactCreated : Bool

/-- The filesystem as the pipeline sees it. -/
structure FS where
  pathExists : String → Bool
  readable : String → Bool

/-- The submission phase of `simulate_predefined_gds` (lines 112–143
lumerical / 109–140 tidy3d): copy the geometry file to `gds_file`
(`gf.import_gds` + `write_gds`; a failure, abstracted by `copyOk = false`,
is re-raised as `RuntimeError`), derive the expected artifact path
`file_name ++ suffix`, consult the gate, and on a fresh run or a confirmed
reuse hand the parameters to `fdtd_from_gds`; on an abort return `None`
without calling the engine. -/
def submitJob (p : PDict) (fs : FS) (copyOk : Bool) (responses : List (Option String))
    (suffix : String) : SubmitOut :=
  match dictGet p "gds_file", dictGet p "file_name" with
  | some (.str _), some (.str fn) =>
    if copyOk = false then ⟨.err .runtimeError, false, false, false, false⟩
    else
      match check_and_confirm (fs.pathExists (fn ++ suffix)) responses with
      | some .aborted => ⟨.ret Option.none, true, false, false, false⟩
      | some _ =>
        let e := fdtd_from_gds p
        ⟨.ret e.result, true, true, e.solverRan, e.artifactCreated⟩
      | Option.none => ⟨.pending, true, false, false, false⟩
  | _, _ => ⟨.err .typeError, false, false, false, false⟩

/-- Full observable behaviour of one `simulate_predefined_gds` call. -/
structure PipeOut where
  outcome : SimOutcome
  sidecar : Option (String × PValue)
  gdsCopied : Bool
  engineCalled : Bool
  solverRan : Bool
  artifactCreated : Bool

/-- A run that died with exception `e` before any side effect. -/
def errOut (e : PyErr) : PipeOut :=
  ⟨.err e, Option.none, false, false, false, false⟩

/-- `simulate_predefined_gds`, both variants (they differ in the default
dict and in the artifact suffix: `'_FDTD.fsp'` for lumerical,
`'_results.hdf5'` for tidy3d): resolve the parameters, persist the sidecar
`file_name + '.json'` via `write_to_json`, then run the submission phase. -/
def simulate_predefined_gds (defaults : PDict) (suffix : String) (cfg : ConfigLoad)
    (overrides : PDict) (fs : FS) (copyOk : Bool)
    (responses : List (Option String)) : PipeOut :=
  match resolveDescriptor defaults cfg overrides fs.pathExists fs.readable with
  | .error e => errOut e
  | .ok p =>
    match dictGet p "file_name" with
    | some (.str fn) =>
      match write_to_json p (fn ++ ".json") with
      | .error e => errOut e
      | .ok content =>
        let s := submitJob p fs copyOk responses suffix
        ⟨s.outcome, some (fn ++ ".json", content), s.gdsCopied, s.engineCalled,
          s.solverRan, s.artifactCreated⟩
    | _ => errOut .typeError

/-- The artifact suffix of the lumerical variant. -/
def lumericalSuffix : String := "_FDTD.fsp"

/-- The artifact suffix of the tidy3d variant. -/
def tidy3dSuffix : String := "_results.hdf5"

/- ## Spectrum readers (find_FWHM.py lines 17–41, data_analysis.py) -/

/-- `np.min` for a nonempty array, with the comparison forced at every
step (`np.min([])` raises; the `[]` case is never reached by the code). -/
def listMinAux (a : ℚ) : List ℚ → ℚ
  | [] => a
  | x :: xs => if x < a then listMinAux x xs else listMinAux a xs

/-- `np.min` over a list. -/
def listMin : List ℚ → ℚ
  | [] => 0
  | x :: xs => listMinAux x xs

/-- `np.max` accumulator. -/
def listMaxAux (a : ℚ) : List ℚ → ℚ
  | [] => a
  | x :: xs => if a < x then listMaxAux x xs else listMaxAux a xs

/-- `np.max` over a list. -/
def listMax : List ℚ → ℚ
  | [] => 0
  | x :: xs => listMaxAux x xs

/-- `read_lumerical_output` (find_FWHM.py lines 17–31), applied to the raw
artifact columns `lambda[:, 0]` (in meters) and `T_net[:, 0]`:
`wav = np.flip(lambda * 1e6)` and `T = np.flip(T_net / np.max(T_net))`. -/
def read_lumerical_output (lam T_net : List ℚ) : List ℚ × List ℚ :=
  ((lam.map (fun x => x * 1000000)).reverse,
   (T_net.map (fun t => t / listMax T_net)).reverse)

/-- `td.C_0` in the units used by tidy3d (µm/s). -/
def C_0 : ℚ := 299792458000000

/-- `data_analysis.read_mode_monitor_from_file`, applied to the monitor's
frequency axis and forward amplitude column: `coeffs = |amps|²` and
`lambdas = td.C_0 / f`.  Complex amplitudes are (re, im) pairs. -/
def read_mode_monitor_from_file (freqs : List ℚ) (amps : List (ℚ × ℚ)) :
    List ℚ × List ℚ :=
  (freqs.map (fun f => C_0 / f),
   amps.map (fun a => a.1 * a.1 + a.2 * a.2))

/-- `read_tidy3d_output` (find_FWHM.py lines 33–41): flip the wavelengths,
take the first mode column, normalize by its max, flip. -/
def read_tidy3d_output (freqs : List ℚ) (amps : List (ℚ × ℚ)) :
    List ℚ × List ℚ :=
  let r := read_mode_monitor_from_file freqs amps
  (r.1.reverse, (r.2.map (fun t => t / listMax r.2)).reverse)

/- ## find_FWHM (find_FWHM.py lines 43–91) -/

/-- `np.linspace a b n`: `n` evenly spaced points from `a` to `b`. -/
def linspace (a b : ℚ) (n : Nat) : List ℚ :=
  (List.range n).map (fun (i : Nat) => a + (b - a) * (i : ℚ) / ((n : ℚ) - 1))

/-- `wav_interp = np.linspace(np.min(wav), np.max(wav), 1000)`. -/
def wavGrid (wav : List ℚ) : List ℚ :=
  linspace (listMin wav) (listMax wav) 1000

/-- `half_level = 0.5 + 0.5 * np.min(T_interp(wav_interp))`, where `f`
stands for the scipy interpolant `CubicSpline(wav, T)` (an external
collaborator, taken as an input function of the embedding). -/
def halfLevel (f : ℚ → ℚ) (wav : List ℚ) : ℚ :=
  1/2 + (listMin ((wavGrid wav).map f)) / 2

/-- The loop condition of the first (left-crossing) scan at a grid point
`x` with predecessor `prevx`:
`T(x) < half and T(prev) > half and x > min(wav)+0.001 and x < max(wav)-0.005`
(the margin bounds `mlo = min(wav)+0.001`, `mhi = max(wav)-0.005` are
supplied by the caller). -/
def scan1Cond (f : ℚ → ℚ) (h mlo mhi prevx x : ℚ) : Bool :=
  decide (f x < h) && decide (h < f prevx) && decide (mlo < x) && decide (x < mhi)

/-- The first `for ii in range(len(wav_interp))` loop: walk the grid
carrying the previous point (at `ii = 0` Python's `wav_interp[ii-1]` is
`wav_interp[-1]`, the last grid point, so the caller passes it as the
initial `prevx`); return the index of the first point satisfying
`scan1Cond`, or `Option.none` when the loop falls through (the recorded
index then stays at its initial `0`). -/
def scan1Go (f : ℚ → ℚ) (h mlo mhi : ℚ) : ℚ → List ℚ → Nat → Option Nat
  | _, [], _ => Option.none
  | prevx, x :: rest, idx =>
    if scan1Cond f h mlo mhi prevx x then some idx
    else scan1Go f h mlo mhi x rest (idx + 1)

/-- The left-crossing scan of `find_FWHM` (lines 61–65): margins
`wav_interp[ii] > np.min(wav) + 0.001` and `< np.max(wav) - 0.005`. -/
def leftCrossIdx (f : ℚ → ℚ) (wav : List ℚ) : Option Nat :=
  scan1Go f (halfLevel f wav) (listMin wav + 1/1000) (listMax wav - 1/200)
    ((wavGrid wav).getLastD 0) (wavGrid wav) 0

/-- The error value of a Python `IndexError`. -/
inductive FWHMErr where
  | indexError
deriving DecidableEq

/-- The part of the second loop's condition evaluated after
`T(x) < half` has succeeded and `x1 = wav_interp[ii+1]` has been fetched:
`T(x1) > half and x > mlo and x < mhi`. -/
def scan2After (f : ℚ → ℚ) (h mlo mhi x x1 : ℚ) : Bool :=
  decide (h < f x1) && decide (mlo < x) && decide (x < mhi)

/-- The full found-condition of the second scan at `x` with successor
`x1`, used to state first-index properties. -/
def scan2Cond (f : ℚ → ℚ) (h mlo mhi x x1 : ℚ) : Bool :=
  decide (f x < h) && scan2After f h mlo mhi x x1

/-- The second `for ii in range(len(wav_interp))` loop (lines 67–71):
`and` short-circuits, so `wav_interp[ii+1]` is fetched exactly when
`T(wav_interp[ii]) < half`; at the last grid index this fetch is out of
bounds and raises `IndexError`.  When the loop falls through, the
recorded index stays at its initial `0`. -/
def scan2Go (f : ℚ → ℚ) (h mlo mhi : ℚ) : List ℚ → Nat → Except FWHMErr Nat
  | [], _ => .ok 0
  | x :: rest, idx =>
    if decide (f x < h) then
      match rest with
      | [] => .error .indexError
      | x1 :: _ =>
        if scan2After f h mlo mhi x x1 then .ok idx
        else scan2Go f h mlo mhi rest (idx + 1)
    else scan2Go f h mlo mhi rest (idx + 1)

/-- The right-crossing scan of `find_FWHM`: margins
`wav_interp[ii] > np.min(wav) + 0.005` and `< np.max(wav) - 0.005`. -/
def rightCrossRes (f : ℚ → ℚ) (wav : List ℚ) : Except FWHMErr Nat :=
  scan2Go f (halfLevel f wav) (listMin wav + 1/200) (listMax wav - 1/200)
    (wavGrid wav) 0

/-- `int(np.round(np.average([i0, i1])))`: the mean of the two crossing
indices, a half rounded to the even integer (NumPy's round). -/
def avgRound (a b : Nat) : Nat :=
  let s := a + b
  if s % 2 = 0 then s / 2
  else if (s / 2) % 2 = 0 then s / 2 else s / 2 + 1

/-- `find_FWHM` (lines 43–91): `f` is the cubic-spline interpolant of the
spectrum (external scipy collaborator).  Both crossing indices default to
`0`; `FWHM = wav_interp[i1] - wav_interp[i0]`; the peak wavelength is the
grid point at the rounded average index.  The second scan can raise
`IndexError` (propagated); no other exception is raised. -/
def find_FWHM (f : ℚ → ℚ) (wav : List ℚ) : Except FWHMErr (ℚ × ℚ) :=
  let w := wavGrid wav
  let i0 := (leftCrossIdx f wav).getD 0
  match rightCrossRes f wav with
  | .error e => .error e
  | .ok i1 => .ok (w.getD i1 0 - w.getD i0 0, w.getD (avgRound i0 i1) 0)

/-- Whether no index of the second scan satisfies its full found-condition
anywhere on the grid (one pass over adjacent pairs). -/
def noQualCross (f : ℚ → ℚ) (h mlo mhi : ℚ) : List ℚ → Bool
  | x :: x1 :: rest => !(scan2Cond f h mlo mhi x x1) && noQualCross f h mlo mhi (x1 :: rest)
  | _ => true

/-- Modelled from the spec: the left-crossing scan with the edge-exclusion
margins read as fractions of the wavelength span — "a margin strictly
excluding the first ~0.1% and last ~0.5% of the wavelength span" — i.e.
`mlo = min + 0.001·span`, `mhi = max − 0.005·span`, for comparison with
the implementation's absolute margins. -/
def leftCrossIdxSpecMargins (f : ℚ → ℚ) (wav : List ℚ) : Option Nat :=
  scan1Go f (halfLevel f wav)
    (listMin wav + (listMax wav - listMin wav) / 1000)
    (listMax wav - (listMax wav - listMin wav) / 200)
    ((wavGrid wav).getLastD 0) (wavGrid wav) 0

/-- The left-scan condition at grid index `j` of spectrum `wav` (the
predecessor at `j = 0` is the last grid point, Python's `wav_interp[-1]`). -/
def lCondAt (f : ℚ → ℚ) (wav : List ℚ) (j : Nat) : Bool :=
  scan1Cond f (halfLevel f wav) (listMin wav + 1/1000) (listMax wav - 1/200)
    (if j = 0 then (wavGrid wav).getLastD 0 else (wavGrid wav).getD (j - 1) 0)
    ((wavGrid wav).getD j 0)

/-- The right-scan found-condition at grid index `j` of spectrum `wav`. -/
def rCondAt (f : ℚ → ℚ) (wav : List ℚ) (j : Nat) : Bool :=
  scan2Cond f (halfLevel f wav) (listMin wav + 1/200) (listMax wav - 1/200)
    ((wavGrid wav).getD j 0) ((wavGrid wav).getD (j + 1) 0)

/- ## Concrete inputs used by witnesses and counterexamples -/

/-- A resolved dict with the two path keys the submission phase reads. -/
def gateDemoDict : PDict :=
  [("gds_file", PValue.str "d/out.gds"), ("file_name", PValue.str "d/out")]

/-- A resolved dict with `flag_run_simulation = 0`. -/
def flagZeroDict : PDict :=
  [("gds_file", PValue.str "d/out.gds"), ("file_name", PValue.str "d/out"),
   ("flag_run_simulation", PValue.num 0)]

/-- Overrides that try to override the derived key `gds_file`. -/
def ovrC3 : PDict :=
  [("predefined_gds", PValue.str "geom.gds"), ("gds_file", PValue.str "custom_output.gds")]

/-- Overrides carrying an ordinary (non-derived) key. -/
def ovrC3w : PDict :=
  [("predefined_gds", PValue.str "geom.gds"), ("wavelength", PValue.num 2)]

/-- The descriptor `resolveDescriptor` produces for `ovrC3w` on the
lumerical defaults with timestamp `"X"`. -/
def resolvedC3w : PDict :=
  ("gds_file", PValue.str "test_X.gds") :: dictUpdate (lumericalDefaults "X") ovrC3w

/-- Overrides pointing at an existing-but-unreadable geometry file. -/
def ovrC7 : PDict := [("predefined_gds", PValue.str "geom.gds")]

/-- Overrides with an output base name that has no directory component. -/
def ovrC9 : PDict :=
  [("predefined_gds", PValue.str "geom.gds"), ("file_name", PValue.str "out2")]

/-- Overrides with an output base name inside a directory. -/
def ovrC9w : PDict :=
  [("predefined_gds", PValue.str "geom.gds"), ("file_name", PValue.str "d/out3")]

/-- The descriptor `resolveDescriptor` produces for `ovrC9w`. -/
def resolvedC9w : PDict :=
  ("gds_file", PValue.str "d/out3.gds") :: dictUpdate (lumericalDefaults "X") ovrC9w

/-- Lookup of a key in a parsed JSON object (`json.loads` of the sidecar
yields dicts/lists/numbers/strings, on which `json.dump` followed by
`json.loads` is structure-preserving, so the parsed sidecar is the
converted dict itself). -/
def jsonObjGet : PValue → String → Option PValue
  | .dict xs, k => dictGet xs k
  | _, _ => Option.none

/-- A 4-sample canonical wavelength axis (µm), as the analyzer requires. -/
def wavDemo : List ℚ := [0, 1/3, 2/3, 1]

/-- The interpolant of a spectrum above the half level everywhere except
at the left edge: below the half level at the last grid point, with no
qualifying below-to-above crossing. -/
def stepAtZero : ℚ → ℚ := fun x => if x ≤ 0 then 1 else 0

/-- An interpolant with a dip covering grid indices 3–5 of `wavDemo`. -/
def dipInterp : ℚ → ℚ := fun x => if 3/999 ≤ x ∧ x ≤ 5/999 then 0 else 1

/-- A narrow-span (0.1 µm) wavelength axis. -/
def wavNarrow : List ℚ := [0, 1/30, 1/15, 1/10]

/-- An interpolant stepping from 1 to 0 at grid index 5 of `wavNarrow`
(grid points are `i/9990`). -/
def stepNarrow : ℚ → ℚ := fun x => if x < 5/9990 then 1 else 0

/- ## Dictionary lemmas -/

theorem dictGet_cons_ne (k' : String) (v' : PValue) (d : PDict) (k : String)
    (h : (k' == k) = false) : dictGet ((k', v') :: d) k = dictGet d k := by
  simp [dictGet, List.find?_cons, h]

theorem dictGet_append (d1 d2 : PDict) (k : String) :
    dictGet (d1 ++ d2) k = (dictGet d1 k).or (dictGet d2 k) := by
  unfold dictGet
  rw [List.find?_append]
  cases List.find? (fun kv => kv.1 == k) d1 <;> simp

/- ## C2: the artifact gate -/

/-- C2: `check_and_confirm` on a missing artifact returns RUN_FRESH for
every response stream (so the confirmation dependency is never consulted);
on an existing artifact it returns REUSE_EXISTING when the (stripped,
lowercased) response is `"y"`, ABORTED when it is `"n"` or the prompt is
interrupted, and re-prompts on any other response; in the submission phase
an ABORTED gate yields `None` with the engine not invoked, and a
REUSE_EXISTING gate proceeds to the engine. -/
theorem artifact_gate_behavior :
    (∀ rs, check_and_confirm false rs = some GateDecision.runFresh)
    ∧ (∀ s rs, normalizeResponse s = "y" →
        check_and_confirm true (some s :: rs) = some GateDecision.reuseExisting)
    ∧ (∀ s rs, normalizeResponse s = "n" →
        check_and_confirm true (some s :: rs) = some GateDecision.aborted)
    ∧ (∀ rs, check_and_confirm true (Option.none :: rs) = some GateDecision.aborted)
    ∧ (∀ s rs, normalizeResponse s ≠ "y" → normalizeResponse s ≠ "n" →
        check_and_confirm true (some s :: rs) = check_and_confirm true rs)
    ∧ (∀ p fs rs suffix g fn, dictGet p "gds_file" = some (.str g) →
        dictGet p "file_name" = some (.str fn) →
        check_and_confirm (fs.pathExists (fn ++ suffix)) rs = some GateDecision.aborted →
        submitJob p fs true rs suffix = ⟨.ret Option.none, true, false, false, false⟩)
    ∧ (∀ p fs rs suffix g fn, dictGet p "gds_file" = some (.str g) →
        dictGet p "file_name" = some (.str fn) →
        check_and_confirm (fs.pathExists (fn ++ suffix)) rs = some GateDecision.reuseExisting →
        (submitJob p fs true rs suffix).engineCalled = true ∧
        (submitJob p fs true rs suffix).outcome = .ret (fdtd_from_gds p).result) := by
  refine ⟨fun rs => rfl, fun s rs h => ?_, fun s rs h => ?_, fun rs => rfl,
    fun s rs h1 h2 => ?_, fun p fs rs suffix g fn hg hf hc => ?_,
    fun p fs rs suffix g fn hg hf hc => ?_⟩
  · simp [check_and_confirm, promptLoop, h]
  · simp [check_and_confirm, promptLoop, h]
  · simp [check_and_confirm, promptLoop, h1, h2]
  · simp only [submitJob, hg, hf]
    rw [hc]
    rfl
  · simp only [submitJob, hg, hf]
    rw [hc]
    exact ⟨rfl, rfl⟩

/-- C2 witness: concrete gate decisions and a concrete aborted submission. -/
theorem artifact_gate_behavior_witness :
    check_and_confirm false [] = some GateDecision.runFresh
    ∧ check_and_confirm true [some " Y "] = some GateDecision.reuseExisting
    ∧ check_and_confirm true [some "n"] = some GateDecision.aborted
    ∧ check_and_confirm true [Option.none] = some GateDecision.aborted
    ∧ check_and_confirm true [some "maybe", some "y"] = some GateDecision.reuseExisting
    ∧ submitJob gateDemoDict ⟨fun _ => true, fun _ => true⟩ true [some "n"] lumericalSuffix
        = ⟨.ret Option.none, true, false, false, false⟩ := by
  refine ⟨artifact_gate_behavior.1 [], artifact_gate_behavior.2.1 " Y " [] (by decide),
    artifact_gate_behavior.2.2.1 "n" [] (by decide), artifact_gate_behavior.2.2.2.1 [], ?_, ?_⟩
  · rw [artifact_gate_behavior.2.2.2.2.1 "maybe" [some "y"] (by decide) (by decide)]
    exact artifact_gate_behavior.2.1 "y" [] (by decide)
  · exact artifact_gate_behavior.2.2.2.2.2.1 gateDemoDict ⟨fun _ => true, fun _ => true⟩
      [some "n"] lumericalSuffix "d/out.gds" "d/out" rfl rfl
      (artifact_gate_behavior.2.2.1 "n" [] (by decide))

/- ## C5: flag_run_simulation = 0 -/

/-- C5: with `flag_run_simulation = 0`, a valid geometry and no
pre-existing artifact, the submission phase copies the geometry file and
hands off to `fdtd_from_gds`, which per its contract returns `None`
without running the solver; no result artifact is created. -/
theorem submit_flag_zero_no_engine :
    ∀ p fs rs suffix g fn, dictGet p "gds_file" = some (.str g) →
    dictGet p "file_name" = some (.str fn) →
    dictGet p "flag_run_simulation" = some (.num 0) →
    fs.pathExists (fn ++ suffix) = false →
    submitJob p fs true rs suffix =
      { outcome := .ret Option.none, gdsCopied := true, engineCalled := true,
        solverRan := false, artifactCreated := false } := by
  intro p fs rs suffix g fn hg hf hflag hex
  simp only [submitJob, hg, hf, hex]
  simp [check_and_confirm, fdtd_from_gds, hflag, truthyOpt, truthy]

/-- C5 witness: a concrete descriptor with the run flag off. -/
theorem submit_flag_zero_no_engine_witness :
    submitJob flagZeroDict ⟨fun _ => false, fun _ => true⟩ true [] lumericalSuffix =
      { outcome := .ret Option.none, gdsCopied := true, engineCalled := true,
        solverRan := false, artifactCreated := false } :=
  submit_flag_zero_no_engine flagZeroDict ⟨fun _ => false, fun _ => true⟩ [] lumericalSuffix
    "d/out.gds" "d/out" rfl rfl rfl rfl

/- ## C7: validation errors after the merge -/

/-- C7 counterexample: a geometry path that exists but is not readable
makes resolution fail with `PermissionError`, which is not the
FileNotFoundError-kind error the claim requires. -/
theorem resolve_unreadable_permission_cex :
    resolveDescriptor (lumericalDefaults "20250101000000") .missing ovrC7
      (fun _ => true) (fun _ => false) = .error .permissionError
    ∧ PyErr.permissionError ≠ PyErr.fileNotFoundError :=
  ⟨rfl, by decide⟩

/-- C7 amended: after the merge, a falsy geometry-path key fails with
`ValueError`; a non-existent geometry path fails with `FileNotFoundError`;
an existing but unreadable geometry path fails with `PermissionError`. -/
theorem resolve_validation_errors :
    ∀ defaults cfg overrides pE pR, cfg ≠ ConfigLoad.malformed →
    (truthyOpt (dictGet (mergedParams defaults cfg overrides) "predefined_gds") = false →
      resolveDescriptor defaults cfg overrides pE pR = .error .valueError)
    ∧ (∀ g, dictGet (mergedParams defaults cfg overrides) "predefined_gds" = some (.str g) →
        g ≠ "" → pE g = false →
        resolveDescriptor defaults cfg overrides pE pR = .error .fileNotFoundError)
    ∧ (∀ g, dictGet (mergedParams defaults cfg overrides) "predefined_gds" = some (.str g) →
        g ≠ "" → pE g = true → pR g = false →
        resolveDescriptor defaults cfg overrides pE pR = .error .permissionError) := by
  intro defaults cfg overrides pE pR hcfg
  cases cfg with
  | malformed => exact absurd rfl hcfg
  | missing =>
    refine ⟨fun h => ?_, fun g hg hne hpe => ?_, fun g hg hne hpe hpr => ?_⟩
    · simp [resolveDescriptor, mergedParams] at h ⊢
      simp [h]
    · have ht : truthyOpt (dictGet (mergedParams defaults .missing overrides)
          "predefined_gds") = true := by simp [hg, truthyOpt, truthy, hne]
      simp only [resolveDescriptor]
      rw [show dictGet (mergedParams defaults .missing overrides) "predefined_gds"
            = some (.str g) from hg] at *
      simp [truthyOpt, truthy, hne, validate_file_path, hpe]
    · simp only [resolveDescriptor]
      rw [show dictGet (mergedParams defaults .missing overrides) "predefined_gds"
            = some (.str g) from hg]
      simp [truthyOpt, truthy, hne, validate_file_path, hpe, hpr]
  | loaded c =>
    refine ⟨fun h => ?_, fun g hg hne hpe => ?_, fun g hg hne hpe hpr => ?_⟩
    · simp [resolveDescriptor, mergedParams] at h ⊢
      simp [h]
    · simp only [resolveDescriptor]
      rw [show dictGet (mergedParams defaults (.loaded c) overrides) "predefined_gds"
            = some (.str g) from hg]
      simp [truthyOpt, truthy, hne, validate_file_path, hpe]
    · simp only [resolveDescriptor]
      rw [show dictGet (mergedParams defaults (.loaded c) overrides) "predefined_gds"
            = some (.str g) from hg]
      simp [truthyOpt, truthy, hne, validate_file_path, hpe, hpr]

/-- C7 witness: the three error cases at concrete inputs. -/
theorem resolve_validation_errors_witness :
    resolveDescriptor (lumericalDefaults "X") .missing [("predefined_gds", PValue.str "")]
      (fun _ => true) (fun _ => true) = .error .valueError
    ∧ resolveDescriptor (lumericalDefaults "X") .missing
        [("predefined_gds", PValue.str "missing.gds")]
        (fun _ => false) (fun _ => true) = .error .fileNotFoundError
    ∧ resolveDescriptor (lumericalDefaults "X") .missing
        [("predefined_gds", PValue.str "locked.gds")]
        (fun _ => true) (fun _ => false) = .error .permissionError := by
  refine ⟨(resolve_validation_errors (lumericalDefaults "X") .missing
      [("predefined_gds", PValue.str "")] (fun _ => true) (fun _ => true)
      (fun h => ConfigLoad.noConfusion h)).1 (by decide),
    (resolve_validation_errors (lumericalDefaults "X") .missing
      [("predefined_gds", PValue.str "missing.gds")] (fun _ => false) (fun _ => true)
      (fun h => ConfigLoad.noConfusion h)).2.1 "missing.gds" rfl (by decide) rfl,
    (resolve_validation_errors (lumericalDefaults "X") .missing
      [("predefined_gds", PValue.str "locked.gds")] (fun _ => true) (fun _ => false)
      (fun h => ConfigLoad.noConfusion h)).2.2 "locked.gds" rfl (by decide) rfl rfl⟩

/- ## C3: caller overrides win, except the derived key -/

/-- C3 counterexample: an override of the key `gds_file` is lost — after
the merge the code recomputes `gds_file = file_name + '.gds'`, overwriting
the caller's value. -/
theorem resolve_gds_file_override_lost_cex :
    (resolveDescriptor (lumericalDefaults "20250101000000") .missing ovrC3
        (fun _ => true) (fun _ => true)).map (fun d => dictGet d "gds_file")
      = .ok (some (.str "test_20250101000000.gds"))
    ∧ dictGet ovrC3 "gds_file" = some (.str "custom_output.gds")
    ∧ ("test_20250101000000.gds" : String) ≠ "custom_output.gds" :=
  ⟨rfl, rfl, by decide⟩

/-- C3 amended: in a successful resolution, every key present in the
overrides other than the derived key `"gds_file"` maps to exactly the
overriding value in the resolved descriptor. -/
theorem resolve_override_wins_except_gds_file :
    ∀ defaults cfg overrides pE pR p k v,
    resolveDescriptor defaults cfg overrides pE pR = .ok p →
    k ≠ "gds_file" → dictGet overrides k = some v → dictGet p k = some v := by
  intro defaults cfg overrides pE pR p k v hres hk hov
  have hbk : ("gds_file" == k) = false := by
    simp only [beq_eq_false_iff_ne]
    exact fun h => hk h.symm
  cases cfg with
  | malformed => exact absurd hres (by simp [resolveDescriptor])
  | missing =>
    simp only [resolveDescriptor] at hres
    split at hres
    · exact Except.noConfusion hres
    · split at hres
      all_goals try exact Except.noConfusion hres
      split at hres
      all_goals try exact Except.noConfusion hres
      split at hres
      all_goals try exact Except.noConfusion hres
      injection hres with h
      subst h
      rw [dictGet_cons_ne _ _ _ _ hbk]
      simp only [mergedParams, dictUpdate, dictGet_append, hov, Option.or]
  | loaded c =>
    simp only [resolveDescriptor] at hres
    split at hres
    · exact Except.noConfusion hres
    · split at hres
      all_goals try exact Except.noConfusion hres
      split at hres
      all_goals try exact Except.noConfusion hres
      split at hres
      all_goals try exact Except.noConfusion hres
      injection hres with h
      subst h
      rw [dictGet_cons_ne _ _ _ _ hbk]
      simp only [mergedParams, dictUpdate, dictGet_append, hov, Option.or]

/-- C3 witness: an overridden ordinary key survives resolution. -/
theorem resolve_override_wins_witness :
    dictGet resolvedC3w "wavelength" = some (PValue.num 2) :=
  resolve_override_wins_except_gds_file (lumericalDefaults "X") .missing ovrC3w
    (fun _ => true) (fun _ => true) resolvedC3w "wavelength" (PValue.num 2) rfl
    (by decide) rfl

/- ## C8: complex round-trip through the JSON sidecar -/

theorem dictGet_convertEntries (xs : PDict) (k : String) :
    dictGet (convertEntries xs) k = (dictGet xs k).map convert_for_json := by
  induction xs with
  | nil => rfl
  | cons kv rest ih =>
    obtain ⟨k', v⟩ := kv
    simp only [convertEntries, dictGet, List.find?_cons] at ih ⊢
    cases h : (k' == k) <;> simp_all

/-- C8: the custom encoder writes a complex value as the
`{"real": r, "imag": i}` object, and for any descriptor holding a complex
value at key `k`, the (structure-preserving) round trip through the JSON
sidecar yields at `k` an object whose real and imaginary parts match the
original exactly. -/
theorem complex_roundtrip :
    (∀ re im, complexEncoderDefault (.cnum re im)
        = some (.dict [("real", .num re), ("imag", .num im)]))
    ∧ (∀ (d : PDict) (k : String) re im, dictGet d k = some (.cnum re im) →
        jsonObjGet (convert_for_json (.dict d)) k
          = some (.dict [("real", .num re), ("imag", .num im)])) := by
  refine ⟨fun re im => rfl, fun d k re im hk => ?_⟩
  simp only [convert_for_json, jsonObjGet]
  rw [dictGet_convertEntries, hk]
  rfl

/-- C8 witness: a concrete complex parameter survives the round trip. -/
theorem complex_roundtrip_witness :
    jsonObjGet (convert_for_json (.dict [("coupling", PValue.cnum (3/2) (-2))])) "coupling"
      = some (.dict [("real", PValue.num (3/2)), ("imag", PValue.num (-2))]) :=
  complex_roundtrip.2 [("coupling", PValue.cnum (3/2) (-2))] "coupling" (3/2) (-2) rfl

/- ## C9: the sidecar write and the empty directory component -/

/-- C9 counterexample: with an output base name that has no directory
component (`"out2"` — as in the built-in default `test_<timestamp>`),
`os.makedirs(os.path.dirname("out2.json"))` is `os.makedirs("")`, which
raises `FileNotFoundError`: the run dies and no sidecar is persisted,
refuting "the write succeeds for any output base name". -/
theorem sidecar_no_directory_cex :
    (simulate_predefined_gds (lumericalDefaults "X") lumericalSuffix .missing ovrC9
        ⟨fun _ => true, fun _ => true⟩ true []).sidecar = Option.none
    ∧ (simulate_predefined_gds (lumericalDefaults "X") lumericalSuffix .missing ovrC9
        ⟨fun _ => true, fun _ => true⟩ true []).outcome = .err .fileNotFoundError :=
  ⟨rfl, rfl⟩

/-- C9 amended: for every successful resolution whose output base name has
a nonempty directory component, the fully resolved descriptor is persisted
(converted for JSON) to the sidecar `<output_base_name>.json`, whose
directory is created if missing. -/
theorem sidecar_written_with_directory :
    ∀ defaults suffix cfg overrides (fs : FS) copyOk rs p fn,
    resolveDescriptor defaults cfg overrides fs.pathExists fs.readable = .ok p →
    dictGet p "file_name" = some (.str fn) →
    dirname (fn ++ ".json") ≠ "" →
    (simulate_predefined_gds defaults suffix cfg overrides fs copyOk rs).sidecar
      = some (fn ++ ".json", convert_for_json (.dict p)) := by
  intro defaults suffix cfg overrides fs copyOk rs p fn hres hfn hdir
  simp only [simulate_predefined_gds, hres, hfn, write_to_json]
  simp [hdir]

/-- C9 witness: a base name inside a directory gets its sidecar written. -/
theorem sidecar_written_with_directory_witness :
    (simulate_predefined_gds (lumericalDefaults "X") lumericalSuffix .missing ovrC9w
        ⟨fun _ => true, fun _ => true⟩ true []).sidecar
      = some ("d/out3.json", convert_for_json (.dict resolvedC9w)) :=
  sidecar_written_with_directory (lumericalDefaults "X") lumericalSuffix .missing ovrC9w
    ⟨fun _ => true, fun _ => true⟩ true [] resolvedC9w "d/out3" rfl rfl (by decide)

/- ## Analyzer helper lemmas -/

theorem listMinAux_map_const (c : ℚ) : ∀ l : List ℚ, listMinAux c (l.map (fun _ => c)) = c := by
  intro l
  induction l with
  | nil => rfl
  | cons x rest ih => simpa [listMinAux] using ih

theorem listMin_map_const (c : ℚ) (l : List ℚ) (h : l ≠ []) :
    listMin (l.map (fun _ => c)) = c := by
  cases l with
  | nil => exact absurd rfl h
  | cons x rest => simpa [listMin] using listMinAux_map_const c rest

theorem wavGrid_length (wav : List ℚ) : (wavGrid wav).length = 1000 := by
  rw [wavGrid, linspace, List.length_map, List.length_range]

theorem wavGrid_ne_nil (wav : List ℚ) : wavGrid wav ≠ [] := by
  intro h
  have hlen := wavGrid_length wav
  rw [h] at hlen
  exact absurd hlen (by norm_num)

theorem linspace_head (a b : ℚ) (n : Nat) : (linspace a b (n + 1)).getD 0 0 = a := by
  rw [linspace, List.range_succ_eq_map]
  simp

theorem wavGrid_getD_zero (wav : List ℚ) : (wavGrid wav).getD 0 0 = listMin wav := by
  rw [wavGrid]
  exact linspace_head (listMin wav) (listMax wav) 999

theorem scan1Go_none (f : ℚ → ℚ) (h mlo mhi : ℚ) (l : List ℚ)
    (hno : ∀ x ∈ l, ¬ f x < h) :
    ∀ prev idx, scan1Go f h mlo mhi prev l idx = Option.none := by
  induction l with
  | nil => intro prev idx; rfl
  | cons x rest ih =>
    intro prev idx
    have hc : scan1Cond f h mlo mhi prev x = false := by
      simp [scan1Cond, hno x (List.mem_cons_self x rest)]
    simp only [scan1Go, hc, Bool.false_eq_true, if_false]
    exact ih (fun y hy => hno y (List.mem_cons_of_mem _ hy)) x (idx + 1)

theorem scan2Go_no_dip (f : ℚ → ℚ) (h mlo mhi : ℚ) (l : List ℚ)
    (hno : ∀ x ∈ l, ¬ f x < h) : ∀ idx, scan2Go f h mlo mhi l idx = .ok 0 := by
  induction l with
  | nil => intro idx; rfl
  | cons x rest ih =>
    intro idx
    have hc : decide (f x < h) = false := by simp [hno x (List.mem_cons_self x rest)]
    simp only [scan2Go, hc, Bool.false_eq_true, if_false]
    exact ih (fun y hy => hno y (List.mem_cons_of_mem _ hy)) (idx + 1)

theorem find_FWHM_const_one (wav : List ℚ) :
    find_FWHM (fun _ => 1) wav = .ok (0, listMin wav) := by
  have hhl : halfLevel (fun _ => (1:ℚ)) wav = 1 := by
    rw [halfLevel, listMin_map_const 1 _ (wavGrid_ne_nil wav)]
    norm_num
  have hno : ∀ x ∈ wavGrid wav, ¬ ((fun _ => (1:ℚ)) x < halfLevel (fun _ => (1:ℚ)) wav) := by
    intro x _
    rw [hhl]
    simp
  have h1 : leftCrossIdx (fun _ => (1:ℚ)) wav = Option.none := by
    rw [leftCrossIdx]
    exact scan1Go_none _ _ _ _ _ hno _ _
  have h2 : rightCrossRes (fun _ => (1:ℚ)) wav = .ok 0 := by
    rw [rightCrossRes]
    exact scan2Go_no_dip _ _ _ _ _ hno _
  simp only [find_FWHM, h1, h2, Option.getD_none]
  rw [show avgRound 0 0 = 0 from rfl, wavGrid_getD_zero, sub_self]

/- ## C1: the flat curve -/

/-- C1 counterexample: on a flat canonical spectrum (every normalized
power sample is 1, so the cubic-spline interpolant is the constant 1),
`find_FWHM` raises no error at all: both crossing indices stay at their
initial 0 and it silently returns FWHM = 0 — there is no
resonance-not-found failure in the code. -/
theorem find_FWHM_flat_cex : find_FWHM (fun _ => 1) wavDemo = .ok (0, 0) := by
  have h := find_FWHM_const_one wavDemo
  rw [show listMin wavDemo = 0 from by with_unfolding_all decide] at h
  exact h

/-- C1 amended: on a flat canonical spectrum `find_FWHM` silently returns
`FWHM = 0` (and the peak at the first grid point, `min wav`), instead of
surfacing a resonance-not-found error. -/
theorem find_FWHM_flat_silent (wav : List ℚ) :
    find_FWHM (fun _ => 1) wav = .ok (0, listMin wav) :=
  find_FWHM_const_one wav

/- ## C10: the out-of-bounds fetch in the second scan -/

theorem scan2Go_overrun (f : ℚ → ℚ) (h mlo mhi : ℚ) :
    ∀ l : List ℚ, l ≠ [] → noQualCross f h mlo mhi l = true →
    f (l.getLastD 0) < h → ∀ idx, scan2Go f h mlo mhi l idx = .error .indexError := by
  intro l
  induction l with
  | nil => intro h1; exact absurd rfl h1
  | cons x rest ih =>
    intro _ hnq hlast idx
    cases rest with
    | nil =>
      have hx : decide (f x < h) = true := by
        simpa using hlast
      simp only [scan2Go, hx, if_true]
    | cons y rest2 =>
      have hnq1 : scan2Cond f h mlo mhi x y = false
          ∧ noQualCross f h mlo mhi (y :: rest2) = true := by
        simpa [noQualCross, Bool.and_eq_true, Bool.not_eq_true'] using hnq
      have hlast' : f ((y :: rest2).getLastD 0) < h := by
        simpa [List.getLastD_cons] using hlast
      by_cases hx : f x < h
      · have hdx : decide (f x < h) = true := decide_eq_true hx
        have hafter : scan2After f h mlo mhi x y = false := by
          have h1 := hnq1.1
          simpa [scan2Cond, hdx] using h1
        simp only [scan2Go, hdx, if_true, hafter, Bool.false_eq_true, if_false]
        exact ih (by simp) hnq1.2 hlast' (idx + 1)
      · have hdx : decide (f x < h) = false := decide_eq_false hx
        simp only [scan2Go, hdx, Bool.false_eq_true, if_false]
        exact ih (by simp) hnq1.2 hlast' (idx + 1)

/-- C10: for any spectrum whose interpolant is below the half-level at the
last of the 1000 resampled grid points and admits no qualifying
below-to-above crossing earlier in the scan, the second loop evaluates
`wav_interp[ii+1]` at `ii = 999` — index 1000 of the 1000-element resample
array — and `find_FWHM` fails with an `IndexError` instead of terminating
or reporting a resonance-not-found condition. -/
theorem find_FWHM_index_overflow (f : ℚ → ℚ) (wav : List ℚ)
    (hnq : noQualCross f (halfLevel f wav) (listMin wav + 1/200) (listMax wav - 1/200)
      (wavGrid wav) = true)
    (hlast : f ((wavGrid wav).getLastD 0) < halfLevel f wav) :
    find_FWHM f wav = .error .indexError := by
  have h2 : rightCrossRes f wav = .error .indexError := by
    rw [rightCrossRes]
    exact scan2Go_overrun _ _ _ _ _ (wavGrid_ne_nil wav) hnq hlast 0
  simp [find_FWHM, h2]

/-- C10 witness: a concrete spectrum interpolant that is below the half
level at the last grid point with no qualifying crossing: the analyzer
dies with `IndexError`. -/
theorem find_FWHM_index_overflow_witness :
    find_FWHM stepAtZero wavDemo = .error .indexError := by
  have hhl : halfLevel stepAtZero wavDemo = 1/2 := by with_unfolding_all decide
  refine find_FWHM_index_overflow stepAtZero wavDemo ?_ ?_
  · rw [hhl]
    with_unfolding_all decide
  · rw [hhl]
    with_unfolding_all decide

/- ## C6: the crossing scans and their margins -/

theorem getD_cons_pred (x : ℚ) (rest : List ℚ) (k : Nat) :
    (x :: rest).getD k 0 = if k = 0 then x else rest.getD (k - 1) 0 := by
  cases k with
  | zero => simp
  | succ k2 => simp [List.getD_cons_succ]

theorem scan1Go_first (f : ℚ → ℚ) (h mlo mhi : ℚ) :
    ∀ (l : List ℚ) (prev : ℚ) (idx k : Nat), k < l.length →
    scan1Cond f h mlo mhi (if k = 0 then prev else l.getD (k - 1) 0) (l.getD k 0) = true →
    (∀ j, j < k →
      scan1Cond f h mlo mhi (if j = 0 then prev else l.getD (j - 1) 0) (l.getD j 0) = false) →
    scan1Go f h mlo mhi prev l idx = some (idx + k) := by
  intro l
  induction l with
  | nil => intro prev idx k hk; simp at hk
  | cons x rest ih =>
    intro prev idx k hk hc hp
    cases k with
    | zero =>
      rw [if_pos rfl, List.getD_cons_zero] at hc
      simp only [scan1Go, hc, if_true]
      rw [Nat.add_zero]
    | succ k2 =>
      have h0 : scan1Cond f h mlo mhi prev x = false := by
        have := hp 0 (Nat.succ_pos k2)
        rw [if_pos rfl, List.getD_cons_zero] at this
        exact this
      simp only [scan1Go, h0, Bool.false_eq_true, if_false]
      have harith : idx + (k2 + 1) = (idx + 1) + k2 := by omega
      rw [harith]
      have hc2 := hc
      rw [if_neg (Nat.succ_ne_zero k2), Nat.add_sub_cancel, List.getD_cons_succ,
        getD_cons_pred] at hc2
      refine ih x (idx + 1) k2 (by simpa using hk) hc2 ?_
      intro j hj
      have hpj := hp (j + 1) (Nat.succ_lt_succ hj)
      rw [if_neg (Nat.succ_ne_zero j), Nat.add_sub_cancel, List.getD_cons_succ,
        getD_cons_pred] at hpj
      exact hpj

theorem scan2Go_first (f : ℚ → ℚ) (h mlo mhi : ℚ) :
    ∀ (l : List ℚ) (idx k : Nat), k + 1 < l.length →
    scan2Cond f h mlo mhi (l.getD k 0) (l.getD (k + 1) 0) = true →
    (∀ j, j < k → scan2Cond f h mlo mhi (l.getD j 0) (l.getD (j + 1) 0) = false) →
    scan2Go f h mlo mhi l idx = .ok (idx + k) := by
  intro l
  induction l with
  | nil => intro idx k hk; simp at hk
  | cons x rest ih =>
    intro idx k hk hc hp
    cases k with
    | zero =>
      cases rest with
      | nil => simp at hk
      | cons y rest2 =>
        rw [List.getD_cons_zero, List.getD_cons_succ, List.getD_cons_zero] at hc
        rw [scan2Cond, Bool.and_eq_true] at hc
        simp only [scan2Go, hc.1, if_true, hc.2, Nat.add_zero]
    | succ k2 =>
      cases rest with
      | nil => simp at hk
      | cons y rest2 =>
        have h0 := hp 0 (Nat.succ_pos k2)
        rw [List.getD_cons_zero, List.getD_cons_succ, List.getD_cons_zero] at h0
        have hc2 := hc
        rw [List.getD_cons_succ, List.getD_cons_succ] at hc2
        have hp2 : ∀ j, j < k2 → scan2Cond f h mlo mhi ((y :: rest2).getD j 0)
            ((y :: rest2).getD (j + 1) 0) = false := by
          intro j hj
          have hpj := hp (j + 1) (Nat.succ_lt_succ hj)
          rw [List.getD_cons_succ, List.getD_cons_succ] at hpj
          exact hpj
        have hk2 : k2 + 1 < (y :: rest2).length := by
          simp only [List.length_cons] at hk ⊢
          omega
        have harith : idx + (k2 + 1) = (idx + 1) + k2 := by omega
        by_cases hfx : f x < h
        · have hafter : scan2After f h mlo mhi x y = false := by
            rw [scan2Cond, decide_eq_true hfx, Bool.true_and] at h0
            exact h0
          simp only [scan2Go, decide_eq_true hfx, if_true, hafter, Bool.false_eq_true, if_false]
          rw [harith]
          exact ih (idx + 1) k2 hk2 hc2 hp2
        · simp only [scan2Go, decide_eq_false hfx, Bool.false_eq_true, if_false]
          rw [harith]
          exact ih (idx + 1) k2 hk2 hc2 hp2

/-- C6 counterexample: on a spectrum spanning 0.1 µm, the interpolant
`stepNarrow` crosses from above to below the half level at grid index 5
(wavelength 5/9990 ≈ 0.0005), inside the margins the claim prescribes
(fractions of the span: first 0.1% = 0.0001, last 0.5%), yet the code
finds no left crossing at all — its lower margin is the absolute offset
0.001, not 0.1% of the span. -/
theorem crossing_margins_cex :
    leftCrossIdx stepNarrow wavNarrow = Option.none
    ∧ leftCrossIdxSpecMargins stepNarrow wavNarrow = some 5 := by
  have hhl : halfLevel stepNarrow wavNarrow = 1/2 := by with_unfolding_all decide
  constructor
  · rw [leftCrossIdx, hhl]
    with_unfolding_all decide
  · rw [leftCrossIdxSpecMargins, hhl]
    with_unfolding_all decide

/-- C6 amended: each crossing is the first resampled-grid index satisfying
its scan condition, but the edge-exclusion margins are absolute wavelength
offsets, not fractions of the span: the left scan requires
`min(wav) + 0.001 < wav_interp[ii] < max(wav) − 0.005` and the right scan
`min(wav) + 0.005 < wav_interp[ii] < max(wav) − 0.005`. -/
theorem crossing_scans_first_index (f : ℚ → ℚ) (wav : List ℚ) (k : Nat) :
    (k < 1000 → lCondAt f wav k = true → (∀ j, j < k → lCondAt f wav j = false) →
      leftCrossIdx f wav = some k)
    ∧ (k + 1 < 1000 → rCondAt f wav k = true → (∀ j, j < k → rCondAt f wav j = false) →
      rightCrossRes f wav = .ok k) := by
  constructor
  · intro hk hc hp
    rw [leftCrossIdx]
    have h := scan1Go_first f (halfLevel f wav) (listMin wav + 1/1000) (listMax wav - 1/200)
      (wavGrid wav) ((wavGrid wav).getLastD 0) 0 k
      (by rw [wavGrid_length]; exact hk) hc hp
    simpa using h
  · intro hk hc hp
    rw [rightCrossRes]
    have h := scan2Go_first f (halfLevel f wav) (listMin wav + 1/200) (listMax wav - 1/200)
      (wavGrid wav) 0 k (by rw [wavGrid_length]; exact hk) hc hp
    simpa using h

/-- C6 witness: a dip covering grid indices 3–5 of a unit-span spectrum:
the left crossing is found at index 3 and the right crossing at index 5. -/
theorem crossing_scans_first_index_witness :
    leftCrossIdx dipInterp wavDemo = some 3 ∧ rightCrossRes dipInterp wavDemo = .ok 5 := by
  have hhl : halfLevel dipInterp wavDemo = 1/2 := by with_unfolding_all decide
  constructor
  · refine (crossing_scans_first_index dipInterp wavDemo 3).1 (by norm_num) ?_ ?_
    · unfold lCondAt
      rw [hhl]
      with_unfolding_all decide
    · intro j hj
      unfold lCondAt
      rw [hhl]
      interval_cases j <;> with_unfolding_all decide
  · refine (crossing_scans_first_index dipInterp wavDemo 5).2 (by norm_num) ?_ ?_
    · unfold rCondAt
      rw [hhl]
      with_unfolding_all decide
    · intro j hj
      unfold rCondAt
      rw [hhl]
      interval_cases j <;> with_unfolding_all decide

/- ## C4: reader post-conditions -/

theorem le_listMaxAux (a : ℚ) (l : List ℚ) : a ≤ listMaxAux a l := by
  induction l generalizing a with
  | nil => exact le_refl a
  | cons x xs ih =>
    rw [listMaxAux]
    split
    · exact le_trans (le_of_lt (by assumption)) (ih x)
    · exact ih a

theorem mem_le_listMaxAux (y : ℚ) (l : List ℚ) : ∀ a, y ∈ l → y ≤ listMaxAux a l := by
  induction l with
  | nil => intro a hy; simp at hy
  | cons x xs ih =>
    intro a hy
    rw [listMaxAux]
    rcases List.mem_cons.mp hy with h1 | h2
    · subst h1
      split
      · exact le_listMaxAux y xs
      · exact le_trans (not_lt.mp (by assumption)) (le_listMaxAux a xs)
    · split
      · exact ih x h2
      · exact ih a h2

theorem listMaxAux_le (c : ℚ) (l : List ℚ) : ∀ a, a ≤ c → (∀ y ∈ l, y ≤ c) →
    listMaxAux a l ≤ c := by
  induction l with
  | nil => intro a ha _; exact ha
  | cons x xs ih =>
    intro a ha hall
    rw [listMaxAux]
    split
    · exact ih x (hall x (List.mem_cons_self x xs)) (fun y hy => hall y (List.mem_cons_of_mem _ hy))
    · exact ih a ha (fun y hy => hall y (List.mem_cons_of_mem _ hy))

theorem listMaxAux_mem_or (l : List ℚ) : ∀ a, listMaxAux a l = a ∨ listMaxAux a l ∈ l := by
  induction l with
  | nil => intro a; exact Or.inl rfl
  | cons x xs ih =>
    intro a
    rw [listMaxAux]
    split
    · rcases ih x with h | h
      · exact Or.inr (by rw [h]; exact List.mem_cons_self x xs)
      · exact Or.inr (List.mem_cons_of_mem _ h)
    · rcases ih a with h | h
      · exact Or.inl h
      · exact Or.inr (List.mem_cons_of_mem _ h)

theorem le_listMax (y : ℚ) (l : List ℚ) (hy : y ∈ l) : y ≤ listMax l := by
  cases l with
  | nil => simp at hy
  | cons x xs =>
    rw [listMax]
    rcases List.mem_cons.mp hy with h1 | h2
    · subst h1; exact le_listMaxAux y xs
    · exact mem_le_listMaxAux y xs x h2

theorem listMax_mem (l : List ℚ) (h : l ≠ []) : listMax l ∈ l := by
  cases l with
  | nil => exact absurd rfl h
  | cons x xs =>
    rw [listMax]
    rcases listMaxAux_mem_or xs x with h1 | h1
    · rw [h1]; exact List.mem_cons_self x xs
    · exact List.mem_cons_of_mem _ h1

theorem listMax_le (l : List ℚ) (c : ℚ) (h : l ≠ []) (hall : ∀ y ∈ l, y ≤ c) :
    listMax l ≤ c := by
  cases l with
  | nil => exact absurd rfl h
  | cons x xs =>
    rw [listMax]
    exact listMaxAux_le c xs x (hall x (List.mem_cons_self x xs))
      (fun y hy => hall y (List.mem_cons_of_mem _ hy))

theorem listMax_reverse (l : List ℚ) : listMax l.reverse = listMax l := by
  by_cases hl : l = []
  · subst hl; rfl
  · have hner : l.reverse ≠ [] := fun h => hl (by simpa using congrArg List.reverse h)
    apply le_antisymm
    · exact listMax_le _ _ hner (fun y hy => le_listMax y l (List.mem_reverse.mp hy))
    · exact listMax_le _ _ hl (fun y hy => le_listMax y l.reverse (List.mem_reverse.mpr hy))

theorem listMax_norm (l : List ℚ) (h : 0 < listMax l) :
    listMax (l.map (fun t => t / listMax l)) = 1 := by
  have hne : l ≠ [] := by
    intro e
    rw [e] at h
    norm_num [listMax] at h
  have hmne : l.map (fun t => t / listMax l) ≠ [] := by simp [hne]
  apply le_antisymm
  · apply listMax_le _ _ hmne
    intro y hy
    rcases List.mem_map.mp hy with ⟨t, ht, rfl⟩
    exact (div_le_one h).mpr (le_listMax t l ht)
  · exact le_listMax 1 _ (List.mem_map.mpr
      ⟨listMax l, listMax_mem l hne, div_self (ne_of_gt h)⟩)

/-- C4: for raw artifacts in the shape each backend produces (lumerical:
strictly descending wavelength column and positive maximal net power;
tidy3d: strictly ascending positive frequency axis and some nonzero
amplitude), both readers return a strictly ascending wavelength sequence
and a power sequence normalized so that its maximum is exactly 1. -/
theorem spectrum_reader_postconditions :
    (∀ lam T_net, List.Pairwise (fun a b => b < a) lam → 0 < listMax T_net →
      List.Pairwise (fun a b => a < b) (read_lumerical_output lam T_net).1
      ∧ listMax (read_lumerical_output lam T_net).2 = 1)
    ∧ (∀ freqs amps, List.Pairwise (fun a b => a < b) freqs → (∀ x ∈ freqs, 0 < x) →
      0 < listMax (amps.map (fun a => a.1 * a.1 + a.2 * a.2)) →
      List.Pairwise (fun a b => a < b) (read_tidy3d_output freqs amps).1
      ∧ listMax (read_tidy3d_output freqs amps).2 = 1) := by
  constructor
  · intro lam T_net hdesc hmax
    constructor
    · simp only [read_lumerical_output]
      apply List.pairwise_reverse.mpr
      apply List.pairwise_map.mpr
      exact hdesc.imp (fun hab => mul_lt_mul_of_pos_right hab (by norm_num))
    · simp only [read_lumerical_output]
      rw [listMax_reverse]
      exact listMax_norm T_net hmax
  · intro freqs amps hasc hpos hmax
    constructor
    · simp only [read_tidy3d_output, read_mode_monitor_from_file]
      apply List.pairwise_reverse.mpr
      apply List.pairwise_map.mpr
      refine hasc.imp_of_mem ?_
      intro a b ha hb hab
      exact div_lt_div_of_pos_left (by norm_num [C_0]) (hpos a ha) hab
    · simp only [read_tidy3d_output, read_mode_monitor_from_file]
      rw [listMax_reverse]
      exact listMax_norm _ hmax

/-- C4 witness: a two-point artifact of each backend format. -/
theorem spectrum_reader_postconditions_witness :
    (List.Pairwise (fun (a : ℚ) (b : ℚ) => a < b) (read_lumerical_output [2, 1] [1, 2]).1
      ∧ listMax (read_lumerical_output [2, 1] [1, 2]).2 = 1)
    ∧ (List.Pairwise (fun (a : ℚ) (b : ℚ) => a < b)
        (read_tidy3d_output [1, 2] [(1, 0), (0, 0)]).1
      ∧ listMax (read_tidy3d_output [1, 2] [(1, 0), (0, 0)]).2 = 1) := by
  constructor
  · exact spectrum_reader_postconditions.1 [2, 1] [1, 2]
      (by with_unfolding_all decide) (by with_unfolding_all decide)
  · exact spectrum_reader_postconditions.2 [1, 2] [(1, 0), (0, 0)]
      (by with_unfolding_all decide) (by with_unfolding_all decide)
      (by with_unfolding_all decide)
